import Mathlib

/-!
Verification of the multi-LLM prediction-market oracle.

The development shallowly embeds the two consensus variants of the
repository:

* the HTTP-service variant (`src/src/api/oracle.ts`): `parseOracleResponse`
  and the `/oracle/consensus` endpoint reduction (`consensusEndpoint`), and
* the plugin-action variant (`EVALUATE_PREDICTION` action): the per-provider
  parse/validate step of `callLLMProvider` (`parsePluginResponse`) and
  `getConsensus`.

Provider network calls are effectful and are modelled by their outcome: a
provider attempt either fails (no key / transport error) or yields raw
response text, which is then parsed exactly as the source does.  JavaScript
numbers are modelled as rationals, so arithmetic (clamping, sums, means) is
exact.
-/

/-! ## JSON values and a model of `JSON.parse`

The source calls the JavaScript built-in `JSON.parse` on the extracted
substring.  We model JSON values with numbers as rationals and give a
recursive-descent parser for the JSON grammar (objects, arrays, strings
with escapes, numbers with fraction and exponent, literals).  It consumes
the whole input (trailing whitespace allowed), as `JSON.parse` does.
-/

inductive Json where
  | null
  | bool (b : Bool)
  | num (q : ℚ)
  | str (s : String)
  | arr (elems : List Json)
  | obj (fields : List (String × Json))

/-- The opening brace character. -/
def lbrace : Char := Char.ofNat 123

/-- The closing brace character. -/
def rbrace : Char := Char.ofNat 125

def skipWs : List Char → List Char
  | [] => []
  | c :: rest =>
    if c = ' ' ∨ c = '\t' ∨ c = '\n' ∨ c = '\r' then skipWs rest else c :: rest

def digitVal? (c : Char) : Option Nat :=
  if '0' ≤ c ∧ c ≤ '9' then some (c.toNat - 48) else none

def hexVal? (c : Char) : Option Nat :=
  if '0' ≤ c ∧ c ≤ '9' then some (c.toNat - 48)
  else if 'a' ≤ c ∧ c ≤ 'f' then some (c.toNat - 87)
  else if 'A' ≤ c ∧ c ≤ 'F' then some (c.toNat - 55)
  else none

def takeDigits : List Char → List Nat × List Char
  | [] => ([], [])
  | c :: rest =>
    match digitVal? c with
    | some d => let p := takeDigits rest; (d :: p.1, p.2)
    | none => ([], c :: rest)

def digitsToNat (ds : List Nat) : Nat :=
  ds.foldl (fun a d => a * 10 + d) 0

/-- JSON string-escape decoding for the single-character escapes. -/
def escChar? (e : Char) : Option Char :=
  if e = '"' then some '"'
  else if e = '\\' then some '\\'
  else if e = '/' then some '/'
  else if e = 'n' then some '\n'
  else if e = 't' then some '\t'
  else if e = 'r' then some '\r'
  else if e = 'b' then some (Char.ofNat 8)
  else if e = 'f' then some (Char.ofNat 12)
  else none

/-- Parse the body of a JSON string (after the opening quote), returning the
decoded characters and the remaining input after the closing quote. -/
def parseStringChars : Nat → List Char → Option (List Char × List Char)
  | 0, _ => none
  | _ + 1, [] => none
  | fuel + 1, c :: rest =>
    if c = '"' then some ([], rest)
    else if c = '\\' then
      match rest with
      | [] => none
      | e :: rest2 =>
        if e = 'u' then
          match rest2 with
          | h1 :: h2 :: h3 :: h4 :: rest3 =>
            match hexVal? h1, hexVal? h2, hexVal? h3, hexVal? h4 with
            | some v1, some v2, some v3, some v4 =>
              match parseStringChars fuel rest3 with
              | some (s, r) =>
                some (Char.ofNat (((v1 * 16 + v2) * 16 + v3) * 16 + v4) :: s, r)
              | none => none
            | _, _, _, _ => none
          | _ => none
        else
          match escChar? e with
          | some d =>
            match parseStringChars fuel rest2 with
            | some (s, r) => some (d :: s, r)
            | none => none
          | none => none
    else if c.toNat < 32 then none
    else
      match parseStringChars fuel rest with
      | some (s, r) => some (c :: s, r)
      | none => none

/-- Optional fraction part `.digits`; yields its value (0 when absent). -/
def parseFrac : List Char → Option (ℚ × List Char)
  | '.' :: r =>
    match takeDigits r with
    | ([], _) => none
    | (fds, r2) => some (mkRat (digitsToNat fds) (10 ^ fds.length), r2)
  | cs => some (0, cs)

/-- Optional exponent part; yields the multiplier `10^±k` (1 when absent). -/
def parseExpPart : List Char → Option (ℚ × List Char)
  | [] => some (1, [])
  | c :: r =>
    if c = 'e' ∨ c = 'E' then
      let p : Bool × List Char :=
        match r with
        | '-' :: rr => (true, rr)
        | '+' :: rr => (false, rr)
        | _ => (false, r)
      match takeDigits p.2 with
      | ([], _) => none
      | (eds, r2) =>
        let k := digitsToNat eds
        some (if p.1 then mkRat 1 (10 ^ k) else mkRat (10 ^ k) 1, r2)
    else some (1, c :: r)

/-- JSON number: `-? int frac? exp?`, rejecting leading zeros. -/
def parseNumber (cs : List Char) : Option (ℚ × List Char) :=
  let p : Bool × List Char :=
    match cs with
    | '-' :: r => (true, r)
    | _ => (false, cs)
  match takeDigits p.2 with
  | ([], _) => none
  | (d :: ds, cs2) =>
    if d = 0 ∧ ds ≠ [] then none
    else
      match parseFrac cs2 with
      | none => none
      | some (fq, cs3) =>
        match parseExpPart cs3 with
        | none => none
        | some (eq, cs4) =>
          let mag : ℚ := (mkRat (digitsToNat (d :: ds)) 1 + fq) * eq
          some (if p.1 then -mag else mag, cs4)

mutual

def parseValue : Nat → List Char → Option (Json × List Char)
  | 0, _ => none
  | fuel + 1, cs =>
    match skipWs cs with
    | [] => none
    | c :: rest =>
      if c = lbrace then
        match skipWs rest with
        | [] => none
        | c2 :: rest2 =>
          if c2 = rbrace then some (.obj [], rest2)
          else
            match parseMembers fuel (c2 :: rest2) with
            | some (fields, r) => some (.obj fields, r)
            | none => none
      else if c = '[' then
        match skipWs rest with
        | [] => none
        | c2 :: rest2 =>
          if c2 = ']' then some (.arr [], rest2)
          else
            match parseElems fuel (c2 :: rest2) with
            | some (xs, r) => some (.arr xs, r)
            | none => none
      else if c = '"' then
        match parseStringChars (rest.length + 1) rest with
        | some (sc, r) => some (.str (String.mk sc), r)
        | none => none
      else if c = 't' then
        match rest with
        | 'r' :: 'u' :: 'e' :: r => some (.bool true, r)
        | _ => none
      else if c = 'f' then
        match rest with
        | 'a' :: 'l' :: 's' :: 'e' :: r => some (.bool false, r)
        | _ => none
      else if c = 'n' then
        match rest with
        | 'u' :: 'l' :: 'l' :: r => some (.null, r)
        | _ => none
      else if c = '-' ∨ (digitVal? c).isSome then
        match parseNumber (c :: rest) with
        | some (q, r) => some (.num q, r)
        | none => none
      else none

def parseMembers : Nat → List Char → Option (List (String × Json) × List Char)
  | 0, _ => none
  | fuel + 1, cs =>
    match skipWs cs with
    | '"' :: rest =>
      match parseStringChars (rest.length + 1) rest with
      | some (kc, r1) =>
        match skipWs r1 with
        | ':' :: r2 =>
          match parseValue fuel r2 with
          | some (v, r3) =>
            match skipWs r3 with
            | [] => none
            | c :: r4 =>
              if c = ',' then
                match parseMembers fuel r4 with
                | some (fields, r5) => some ((String.mk kc, v) :: fields, r5)
                | none => none
              else if c = rbrace then some ([(String.mk kc, v)], r4)
              else none
          | none => none
        | _ => none
      | none => none
    | _ => none

def parseElems : Nat → List Char → Option (List Json × List Char)
  | 0, _ => none
  | fuel + 1, cs =>
    match parseValue fuel cs with
    | some (v, r1) =>
      match skipWs r1 with
      | ',' :: r2 =>
        match parseElems fuel r2 with
        | some (xs, r3) => some (v :: xs, r3)
        | none => none
      | ']' :: r2 => some ([v], r2)
      | _ => none
    | none => none

end

/-- Model of `JSON.parse`: parse one value consuming the entire input. -/
def Json.parse (s : String) : Option Json :=
  let cs := s.toList
  match parseValue (cs.length + 1) cs with
  | some (j, rest) => if skipWs rest = [] then some j else none
  | none => none

/-- Property lookup on a parsed JSON object.  JavaScript keeps the last
binding of a duplicated key, so lookup prefers the rightmost match. -/
def lookupLast : List (String × Json) → String → Option Json
  | [], _ => none
  | kv :: rest, key =>
    match lookupLast rest key with
    | some v => some v
    | none => if kv.1 = key then some kv.2 else none

def Json.getField : Json → String → Option Json
  | .obj fields, key => lookupLast fields key
  | _, _ => none

/-! ## Extracting the JSON substring from provider text

Both variants run `text.match(/\{[\s\S]*\}/)`.  Without the global flag the
regex finds the leftmost match, and the greedy `[\s\S]*` then extends it as
far as possible: the match runs from the first opening brace of the text to
the last closing brace, provided that closing brace comes after the opening
one.  `jsonMatch` models exactly that. -/

def jsonMatch (text : String) : Option String :=
  match text.toList.findIdx? (fun c => c = lbrace) with
  | none => none
  | some i =>
    match text.toList.reverse.findIdx? (fun c => c = rbrace) with
    | none => none
    | some k =>
      if i < text.toList.length - 1 - k then
        some (String.mk ((text.toList.drop i).take ((text.toList.length - 1 - k) - i + 1)))
      else none

/-- Scan for the close of a brace-balanced block, `depth` braces deep,
accumulating the scanned characters. -/
def scanBalanced : List Char → Nat → List Char → Option (List Char)
  | [], _, _ => none
  | c :: rest, depth, acc =>
    if c = lbrace then scanBalanced rest (depth + 1) (acc ++ [c])
    else if c = rbrace then
      if depth = 1 then some (acc ++ [c])
      else scanBalanced rest (depth - 1) (acc ++ [c])
    else scanBalanced rest depth (acc ++ [c])

def dropToBrace : List Char → Option (List Char)
  | [] => none
  | c :: rest => if c = lbrace then some rest else dropToBrace rest

/-- Modelled from the spec: the extraction rule as §4.2 words it — "locate
the first `{ ... }` balanced-brace JSON object substring in the text".  This
is NOT what the source regex does; it exists to compare the spec's wording
against `jsonMatch` (brace counting, as the wording implies; quoting of
braces inside JSON strings is beyond the spec's words). -/
def firstBalancedObject (text : String) : Option String :=
  match dropToBrace text.toList with
  | none => none
  | some rest =>
    match scanBalanced rest 1 [lbrace] with
    | some objChars => some (String.mk objChars)
    | none => none

/-! ## The response parsers

`parseOracleResponse` is the HTTP-service parser (`src/src/api/oracle.ts`,
`parseOracleResponse`): extract, `JSON.parse`, validate the four fields,
clamp confidence into `[0,1]`.

`parsePluginResponse` is the parse/validate tail of the plugin action's
`callLLMProvider`: the same extraction and validation, returning `none`
instead of failing — and with **no** clamping of the confidence. -/

inductive ParseError where
  | noJsonFound
  | jsonSyntaxError
  | invalidStructure
deriving DecidableEq

structure OracleResponse where
  optionATrue : Bool
  optionBTrue : Bool
  confidence : ℚ
  reasoning : String
deriving DecidableEq

/-- The structural validation both variants perform: the four required
fields must be present with the required primitive types. -/
def validateFields (parsed : Json) : Option (Bool × Bool × ℚ × String) :=
  match parsed.getField "optionATrue", parsed.getField "optionBTrue",
        parsed.getField "confidence", parsed.getField "reasoning" with
  | some (.bool a), some (.bool b), some (.num c), some (.str r) => some (a, b, c, r)
  | _, _, _, _ => none

def parseOracleResponse (text : String) : Except ParseError OracleResponse :=
  match jsonMatch text with
  | none => Except.error ParseError.noJsonFound
  | some s =>
    match Json.parse s with
    | none => Except.error ParseError.jsonSyntaxError
    | some parsed =>
      match validateFields parsed with
      | none => Except.error ParseError.invalidStructure
      | some (a, b, c, r) =>
        Except.ok { optionATrue := a, optionBTrue := b,
                    confidence := max 0 (min 1 c), reasoning := r }

/-- Modelled from the spec: the parser as §4.2 words it, with the first
balanced-brace object substring in place of the greedy regex match; kept
for refinement comparison with `parseOracleResponse`. -/
def specParseOracleResponse (text : String) : Except ParseError OracleResponse :=
  match firstBalancedObject text with
  | none => Except.error ParseError.noJsonFound
  | some s =>
    match Json.parse s with
    | none => Except.error ParseError.jsonSyntaxError
    | some parsed =>
      match validateFields parsed with
      | none => Except.error ParseError.invalidStructure
      | some (a, b, c, r) =>
        Except.ok { optionATrue := a, optionBTrue := b,
                    confidence := max 0 (min 1 c), reasoning := r }

structure ProviderResponse where
  provider : String
  model : String
  optionATrue : Bool
  optionBTrue : Bool
  confidence : ℚ
  reasoning : String
deriving DecidableEq

/-- Parse/validate tail of the plugin action's `callLLMProvider`: note the
confidence is passed through unclamped, exactly as in the source. -/
def parsePluginResponse (providerName modelName text : String) : Option ProviderResponse :=
  match jsonMatch text with
  | none => none
  | some s =>
    match Json.parse s with
    | none => none
    | some parsed =>
      match validateFields parsed with
      | none => none
      | some (a, b, c, r) =>
        some { provider := providerName, model := modelName, optionATrue := a,
               optionBTrue := b, confidence := c, reasoning := r }

/-- Outcome of one provider attempt in the plugin action: the `try` block
returns `null` on a missing API key or any thrown error, otherwise the raw
response text goes through parse/validate. -/
inductive ProviderAttempt where
  | noApiKey
  | transportError
  | gotText (text : String)

def runProvider (providerName modelName : String) (a : ProviderAttempt) : Option ProviderResponse :=
  match a with
  | ProviderAttempt.noApiKey => none
  | ProviderAttempt.transportError => none
  | ProviderAttempt.gotText t => parsePluginResponse providerName modelName t

/-! ## The plugin-action consensus (`getConsensus`) -/

def CONSENSUS_THRESHOLD : Nat := 2

def MIN_CONFIDENCE : ℚ := 7 / 10

structure Votes where
  optionA : Nat
  optionB : Nat
deriving DecidableEq

structure ConsensusResult where
  optionATrue : Bool
  optionBTrue : Bool
  confidence : ℚ
  reasoning : String
  providers : List String
  votes : Votes
deriving DecidableEq

inductive ConsensusError where
  | noValidResponses
deriving DecidableEq

/-- The mutable accumulators of `getConsensus`'s tally loop. -/
structure TallyState where
  optionAVotes : Nat
  optionBVotes : Nat
  totalConfidence : ℚ
  reasonings : List String
  usedProviders : List String

/-- One iteration of the tally loop over an accepted response. -/
def tallyStep (s : TallyState) (r : ProviderResponse) : TallyState :=
  let s1 :=
    if r.optionATrue && !r.optionBTrue then
      { s with optionAVotes := s.optionAVotes + 1 }
    else if r.optionBTrue && !r.optionATrue then
      { s with optionBVotes := s.optionBVotes + 1 }
    else s
  { s1 with totalConfidence := s1.totalConfidence + r.confidence,
            reasonings := s1.reasonings ++ [r.provider ++ ": " ++ r.reasoning],
            usedProviders := s1.usedProviders ++ [r.provider] }

def initialTally : TallyState :=
  { optionAVotes := 0, optionBVotes := 0, totalConfidence := 0,
    reasonings := [], usedProviders := [] }

/-- The reduction of `getConsensus` over the already-accepted responses
(the code after the collection loop). -/
def consensusOf (responses : List ProviderResponse) : Except ConsensusError ConsensusResult :=
  if responses.length = 0 then Except.error ConsensusError.noValidResponses
  else
    let t := responses.foldl tallyStep initialTally
    Except.ok { optionATrue := decide (CONSENSUS_THRESHOLD ≤ t.optionAVotes),
                optionBTrue := decide (CONSENSUS_THRESHOLD ≤ t.optionBVotes),
                confidence := t.totalConfidence / (responses.length : ℚ),
                reasoning := String.intercalate "; " t.reasonings,
                providers := t.usedProviders,
                votes := { optionA := t.optionAVotes, optionB := t.optionBVotes } }

/-- The collection loop: each provider outcome is kept iff it produced a
response whose confidence meets `MIN_CONFIDENCE`. -/
def acceptedResponses : List (Option ProviderResponse) → List ProviderResponse
  | [] => []
  | none :: rest => acceptedResponses rest
  | some r :: rest =>
    if MIN_CONFIDENCE ≤ r.confidence then r :: acceptedResponses rest
    else acceptedResponses rest

/-- `getConsensus`, as a function of the per-provider outcomes. -/
def getConsensus (outcomes : List (Option ProviderResponse)) : Except ConsensusError ConsensusResult :=
  consensusOf (acceptedResponses outcomes)

/-! ## The HTTP-service consensus endpoint (`/oracle/consensus`) -/

/-- One entry of the endpoint's `responses` array. -/
structure AttemptRecord where
  provider : String
  response : OracleResponse
  error : Option String
deriving DecidableEq

/-- The `catch` branch of the endpoint's provider loop: a failed provider is
recorded with a placeholder response and the error message. -/
def mkErrorAttempt (p e : String) : AttemptRecord :=
  { provider := p,
    response := { optionATrue := false, optionBTrue := false, confidence := 0,
                  reasoning := "Provider error" },
    error := some e }

/-- The endpoint's provider loop, as a function of each provider call's
outcome (parsed response or error message). -/
def collectAttempts (attempts : List (String × Except String OracleResponse)) : List AttemptRecord :=
  attempts.map fun pr =>
    match pr.2 with
    | Except.ok resp => { provider := pr.1, response := resp, error := none }
    | Except.error e => mkErrorAttempt pr.1 e

/-- `validResponses`: no error recorded and confidence at least 0.7. -/
def httpValid (responses : List AttemptRecord) : List AttemptRecord :=
  responses.filter fun r => r.error.isNone && decide ((7 : ℚ) / 10 ≤ r.response.confidence)

structure HttpTally where
  optionAVotes : Nat
  optionBVotes : Nat
  totalConfidence : ℚ
  reasonings : List String

def httpTallyStep (s : HttpTally) (r : AttemptRecord) : HttpTally :=
  let s1 :=
    if r.response.optionATrue && !r.response.optionBTrue then
      { s with optionAVotes := s.optionAVotes + 1 }
    else if r.response.optionBTrue && !r.response.optionATrue then
      { s with optionBVotes := s.optionBVotes + 1 }
    else s
  { s1 with totalConfidence := s1.totalConfidence + r.response.confidence,
            reasonings := s1.reasonings ++ [r.provider ++ ": " ++ r.response.reasoning] }

def initialHttpTally : HttpTally :=
  { optionAVotes := 0, optionBVotes := 0, totalConfidence := 0, reasonings := [] }

structure HttpConsensus where
  optionATrue : Bool
  optionBTrue : Bool
  confidence : ℚ
  reasoning : String
  votes : Votes
  providers : List String
  allResponses : List AttemptRecord
deriving DecidableEq

inductive HttpOutcome where
  | failure (error : String) (responses : List AttemptRecord)
  | success (c : HttpConsensus)
deriving DecidableEq

/-- The successful consensus object built from `validResponses` (votes,
mean confidence, reasoning trail, `Math.ceil(length / 2)` threshold) with
the full attempts list attached as `allResponses`. -/
def httpSuccess (validResponses allR : List AttemptRecord) : HttpConsensus :=
  let t := validResponses.foldl httpTallyStep initialHttpTally
  let consensusThreshold := (validResponses.length + 1) / 2
  { optionATrue := decide (consensusThreshold ≤ t.optionAVotes),
    optionBTrue := decide (consensusThreshold ≤ t.optionBVotes),
    confidence := t.totalConfidence / (validResponses.length : ℚ),
    reasoning := String.intercalate "; " t.reasonings,
    votes := { optionA := t.optionAVotes, optionB := t.optionBVotes },
    providers := validResponses.map fun r => r.provider,
    allResponses := allR }

/-- The `/oracle/consensus` handler after the provider loop: a 500 error
carrying every attempt when no response is valid, otherwise the consensus
object. -/
def consensusEndpoint (responses : List AttemptRecord) : HttpOutcome :=
  if (httpValid responses).length = 0 then
    HttpOutcome.failure "No valid responses from providers" responses
  else HttpOutcome.success (httpSuccess (httpValid responses) responses)

/-! ## Characterizing the tally loops -/

theorem foldl_tally_optionAVotes (rs : List ProviderResponse) : ∀ s : TallyState,
    (rs.foldl tallyStep s).optionAVotes =
      s.optionAVotes + (rs.filter fun r => r.optionATrue && !r.optionBTrue).length := by
  induction rs with
  | nil => intro s; simp
  | cons r rest ih =>
    intro s
    rw [List.foldl_cons, ih, List.filter_cons]
    cases hA : r.optionATrue <;> cases hB : r.optionBTrue <;>
      simp [tallyStep, hA, hB]
    all_goals omega

theorem foldl_tally_optionBVotes (rs : List ProviderResponse) : ∀ s : TallyState,
    (rs.foldl tallyStep s).optionBVotes =
      s.optionBVotes + (rs.filter fun r => r.optionBTrue && !r.optionATrue).length := by
  induction rs with
  | nil => intro s; simp
  | cons r rest ih =>
    intro s
    rw [List.foldl_cons, ih, List.filter_cons]
    cases hA : r.optionATrue <;> cases hB : r.optionBTrue <;>
      simp [tallyStep, hA, hB]
    all_goals omega

theorem foldl_tally_totalConfidence (rs : List ProviderResponse) : ∀ s : TallyState,
    (rs.foldl tallyStep s).totalConfidence =
      s.totalConfidence + (rs.map fun r => r.confidence).sum := by
  induction rs with
  | nil => intro s; simp
  | cons r rest ih =>
    intro s
    rw [List.foldl_cons, ih]
    cases hA : r.optionATrue <;> cases hB : r.optionBTrue <;>
      simp [tallyStep, hA, hB] <;> ring

theorem foldl_tally_reasonings (rs : List ProviderResponse) : ∀ s : TallyState,
    (rs.foldl tallyStep s).reasonings =
      s.reasonings ++ rs.map fun r => r.provider ++ ": " ++ r.reasoning := by
  induction rs with
  | nil => intro s; simp
  | cons r rest ih =>
    intro s
    rw [List.foldl_cons, ih]
    cases hA : r.optionATrue <;> cases hB : r.optionBTrue <;>
      simp [tallyStep, hA, hB]

theorem foldl_tally_usedProviders (rs : List ProviderResponse) : ∀ s : TallyState,
    (rs.foldl tallyStep s).usedProviders =
      s.usedProviders ++ rs.map fun r => r.provider := by
  induction rs with
  | nil => intro s; simp
  | cons r rest ih =>
    intro s
    rw [List.foldl_cons, ih]
    cases hA : r.optionATrue <;> cases hB : r.optionBTrue <;>
      simp [tallyStep, hA, hB]

theorem foldl_httpTally_optionAVotes (rs : List AttemptRecord) : ∀ s : HttpTally,
    (rs.foldl httpTallyStep s).optionAVotes =
      s.optionAVotes + (rs.filter fun r => r.response.optionATrue && !r.response.optionBTrue).length := by
  induction rs with
  | nil => intro s; simp
  | cons r rest ih =>
    intro s
    rw [List.foldl_cons, ih, List.filter_cons]
    cases hA : r.response.optionATrue <;> cases hB : r.response.optionBTrue <;>
      simp [httpTallyStep, hA, hB]
    all_goals omega

theorem foldl_httpTally_optionBVotes (rs : List AttemptRecord) : ∀ s : HttpTally,
    (rs.foldl httpTallyStep s).optionBVotes =
      s.optionBVotes + (rs.filter fun r => r.response.optionBTrue && !r.response.optionATrue).length := by
  induction rs with
  | nil => intro s; simp
  | cons r rest ih =>
    intro s
    rw [List.foldl_cons, ih, List.filter_cons]
    cases hA : r.response.optionATrue <;> cases hB : r.response.optionBTrue <;>
      simp [httpTallyStep, hA, hB]
    all_goals omega

theorem foldl_httpTally_totalConfidence (rs : List AttemptRecord) : ∀ s : HttpTally,
    (rs.foldl httpTallyStep s).totalConfidence =
      s.totalConfidence + (rs.map fun r => r.response.confidence).sum := by
  induction rs with
  | nil => intro s; simp
  | cons r rest ih =>
    intro s
    rw [List.foldl_cons, ih]
    cases hA : r.response.optionATrue <;> cases hB : r.response.optionBTrue <;>
      simp [httpTallyStep, hA, hB] <;> ring

theorem foldl_httpTally_reasonings (rs : List AttemptRecord) : ∀ s : HttpTally,
    (rs.foldl httpTallyStep s).reasonings =
      s.reasonings ++ rs.map fun r => r.provider ++ ": " ++ r.response.reasoning := by
  induction rs with
  | nil => intro s; simp
  | cons r rest ih =>
    intro s
    rw [List.foldl_cons, ih]
    cases hA : r.response.optionATrue <;> cases hB : r.response.optionBTrue <;>
      simp [httpTallyStep, hA, hB]

/-! ## Closed forms of the two reductions -/

/-- The value `consensusOf` produces on a nonempty accepted list, written
with the tally loop replaced by its closed form. -/
def reducedResult (rs : List ProviderResponse) : ConsensusResult :=
  { optionATrue := decide (CONSENSUS_THRESHOLD ≤ (rs.filter fun r => r.optionATrue && !r.optionBTrue).length),
    optionBTrue := decide (CONSENSUS_THRESHOLD ≤ (rs.filter fun r => r.optionBTrue && !r.optionATrue).length),
    confidence := (rs.map fun r => r.confidence).sum / (rs.length : ℚ),
    reasoning := String.intercalate "; " (rs.map fun r => r.provider ++ ": " ++ r.reasoning),
    providers := rs.map fun r => r.provider,
    votes := { optionA := (rs.filter fun r => r.optionATrue && !r.optionBTrue).length,
               optionB := (rs.filter fun r => r.optionBTrue && !r.optionATrue).length } }

theorem consensusOf_eq_ok (rs : List ProviderResponse) (hne : rs ≠ []) :
    consensusOf rs = Except.ok (reducedResult rs) := by
  unfold consensusOf reducedResult
  rw [if_neg (by simpa using hne)]
  simp only [foldl_tally_optionAVotes, foldl_tally_optionBVotes, foldl_tally_totalConfidence,
    foldl_tally_reasonings, foldl_tally_usedProviders]
  simp [initialTally]

theorem getConsensus_ok (o : List (Option ProviderResponse)) (c : ConsensusResult)
    (h : getConsensus o = Except.ok c) :
    acceptedResponses o ≠ [] ∧ c = reducedResult (acceptedResponses o) := by
  by_cases hne : acceptedResponses o = []
  · rw [getConsensus, hne, consensusOf] at h
    simp at h
  · refine ⟨hne, ?_⟩
    rw [getConsensus, consensusOf_eq_ok _ hne] at h
    exact (Except.ok.inj h).symm

/-- The value the endpoint's success branch produces, in closed form. -/
def httpReduced (valid allR : List AttemptRecord) : HttpConsensus :=
  { optionATrue := decide ((valid.length + 1) / 2 ≤ (valid.filter fun r => r.response.optionATrue && !r.response.optionBTrue).length),
    optionBTrue := decide ((valid.length + 1) / 2 ≤ (valid.filter fun r => r.response.optionBTrue && !r.response.optionATrue).length),
    confidence := (valid.map fun r => r.response.confidence).sum / (valid.length : ℚ),
    reasoning := String.intercalate "; " (valid.map fun r => r.provider ++ ": " ++ r.response.reasoning),
    votes := { optionA := (valid.filter fun r => r.response.optionATrue && !r.response.optionBTrue).length,
               optionB := (valid.filter fun r => r.response.optionBTrue && !r.response.optionATrue).length },
    providers := valid.map fun r => r.provider,
    allResponses := allR }

theorem httpSuccess_eq (valid allR : List AttemptRecord) :
    httpSuccess valid allR = httpReduced valid allR := by
  unfold httpSuccess httpReduced
  simp only [foldl_httpTally_optionAVotes, foldl_httpTally_optionBVotes,
    foldl_httpTally_totalConfidence, foldl_httpTally_reasonings]
  simp [initialHttpTally]

theorem consensusEndpoint_success (responses : List AttemptRecord) (r : HttpConsensus)
    (h : consensusEndpoint responses = HttpOutcome.success r) :
    httpValid responses ≠ [] ∧ r = httpReduced (httpValid responses) responses := by
  by_cases hne : httpValid responses = []
  · rw [consensusEndpoint, hne] at h
    simp at h
  · refine ⟨hne, ?_⟩
    rw [consensusEndpoint, if_neg (by simpa using hne), httpSuccess_eq] at h
    exact (HttpOutcome.success.inj h).symm

/-! ## Acceptance and filtering -/

theorem acceptedResponses_eq_filter (outcomes : List (Option ProviderResponse)) :
    acceptedResponses outcomes =
      (outcomes.filterMap id).filter fun r => decide (MIN_CONFIDENCE ≤ r.confidence) := by
  induction outcomes with
  | nil => rfl
  | cons o rest ih =>
    cases o with
    | none => simpa [acceptedResponses] using ih
    | some r =>
      by_cases h : MIN_CONFIDENCE ≤ r.confidence <;>
        simp [acceptedResponses, h, ih, List.filter_cons]

theorem acceptedResponses_append (xs ys : List (Option ProviderResponse)) :
    acceptedResponses (xs ++ ys) = acceptedResponses xs ++ acceptedResponses ys := by
  induction xs with
  | nil => rfl
  | cons o rest ih =>
    cases o with
    | none => simpa [acceptedResponses] using ih
    | some r =>
      by_cases h : MIN_CONFIDENCE ≤ r.confidence <;> simp [acceptedResponses, h, ih]

theorem mem_acceptedResponses (outcomes : List (Option ProviderResponse)) (r : ProviderResponse) :
    r ∈ acceptedResponses outcomes ↔ some r ∈ outcomes ∧ MIN_CONFIDENCE ≤ r.confidence := by
  rw [acceptedResponses_eq_filter]
  simp [List.mem_filter, List.mem_filterMap]

/-! ## Mean bound -/

theorem mul_length_le_sum (l : List ℚ) (a : ℚ) (h : ∀ x ∈ l, a ≤ x) :
    a * (l.length : ℚ) ≤ l.sum := by
  induction l with
  | nil => simp
  | cons x rest ih =>
    have hx : a ≤ x := h x (by simp)
    have hr := ih fun y hy => h y (by simp [hy])
    simp only [List.sum_cons, List.length_cons]
    push_cast
    nlinarith [hx, hr]

theorem le_mean (l : List ℚ) (a : ℚ) (hne : l ≠ []) (h : ∀ x ∈ l, a ≤ x) :
    a ≤ l.sum / (l.length : ℚ) := by
  have hpos : (0 : ℚ) < (l.length : ℚ) := by
    exact_mod_cast List.length_pos.mpr hne
  rw [le_div_iff₀ hpos]
  exact mul_length_le_sum l a h

/-! ## The claims -/

/-- Claim C1: for every accepted verdict in the consensus reduction (in both
variants), exactly one vote for A is cast iff `optionATrue` is true and
`optionBTrue` is false, exactly one vote for B iff `optionBTrue` is true and
`optionATrue` is false, and a verdict with both flags equal casts no vote
while still being added to the confidence total and appended to the
reasoning trail. -/
theorem claim_C1 (s : TallyState) (r : ProviderResponse) (h : HttpTally) (a : AttemptRecord) :
    ((tallyStep s r).optionAVotes =
        s.optionAVotes + (if r.optionATrue = true ∧ r.optionBTrue = false then 1 else 0) ∧
     (tallyStep s r).optionBVotes =
        s.optionBVotes + (if r.optionBTrue = true ∧ r.optionATrue = false then 1 else 0) ∧
     ((tallyStep s r).optionAVotes = s.optionAVotes + 1 ↔
        r.optionATrue = true ∧ r.optionBTrue = false) ∧
     ((tallyStep s r).optionBVotes = s.optionBVotes + 1 ↔
        r.optionBTrue = true ∧ r.optionATrue = false) ∧
     (tallyStep s r).totalConfidence = s.totalConfidence + r.confidence ∧
     (tallyStep s r).reasonings = s.reasonings ++ [r.provider ++ ": " ++ r.reasoning]) ∧
    ((httpTallyStep h a).optionAVotes =
        h.optionAVotes + (if a.response.optionATrue = true ∧ a.response.optionBTrue = false then 1 else 0) ∧
     (httpTallyStep h a).optionBVotes =
        h.optionBVotes + (if a.response.optionBTrue = true ∧ a.response.optionATrue = false then 1 else 0) ∧
     (httpTallyStep h a).totalConfidence = h.totalConfidence + a.response.confidence ∧
     (httpTallyStep h a).reasonings = h.reasonings ++ [a.provider ++ ": " ++ a.response.reasoning]) := by
  constructor
  · cases hA : r.optionATrue <;> cases hB : r.optionBTrue <;>
      simp [tallyStep, hA, hB]
  · cases hA : a.response.optionATrue <;> cases hB : a.response.optionBTrue <;>
      simp [httpTallyStep, hA, hB]

/-- Claim C2: three accepted verdicts (A-favoring at 0.8, A-favoring at
0.75, B-favoring at 0.9) with the plugin's threshold 2 reduce to
`optionATrue = true`, `optionBTrue = false`, votes A=2 B=1, and confidence
the arithmetic mean (0.8 + 0.75 + 0.9) / 3. -/
theorem claim_C2 :
    consensusOf
      [ { provider := "openai", model := "gpt-4", optionATrue := true, optionBTrue := false,
          confidence := 8/10, reasoning := "a1" },
        { provider := "deepseek", model := "deepseek-chat", optionATrue := true, optionBTrue := false,
          confidence := 75/100, reasoning := "a2" },
        { provider := "gemini", model := "gemini-1.5-flash", optionATrue := false, optionBTrue := true,
          confidence := 9/10, reasoning := "b1" } ] =
      Except.ok { optionATrue := true, optionBTrue := false,
                  confidence := (8/10 + 75/100 + 9/10) / 3,
                  reasoning := "openai: a1; deepseek: a2; gemini: b1",
                  providers := ["openai", "deepseek", "gemini"],
                  votes := { optionA := 2, optionB := 1 } } := by
  simp +decide [consensusOf, tallyStep, initialTally, CONSENSUS_THRESHOLD, String.intercalate]

/-- A verdict filtered out by the confidence floor, for the C3
counterexample. -/
def c3lowVerdict : ProviderResponse :=
  { provider := "openai", model := "gpt-4", optionATrue := true, optionBTrue := false,
    confidence := 3/10, reasoning := "weak" }

/-- Counterexample to C3: the plugin variant throws a fixed-message error.
Three distinct per-provider failure configurations — one provider failing,
two providers failing, and one provider filtered by the confidence floor —
all produce the identical error value, so the plugin variant's error cannot
carry the per-provider failure information the claim asserts (the failures
are only logged). -/
theorem claim_C3_counterexample :
    getConsensus [none] = Except.error ConsensusError.noValidResponses ∧
    getConsensus [none, none] = Except.error ConsensusError.noValidResponses ∧
    getConsensus [some c3lowVerdict] = Except.error ConsensusError.noValidResponses ∧
    getConsensus [none] = getConsensus [none, none] ∧
    getConsensus [none] = getConsensus [some c3lowVerdict] := by
  have h2 : ¬ ((7:ℚ)/10 ≤ 3/10) := by norm_num
  have h3 : getConsensus [some c3lowVerdict] = Except.error ConsensusError.noValidResponses := by
    simp +decide [getConsensus, consensusOf, acceptedResponses, MIN_CONFIDENCE, c3lowVerdict, h2]
  refine ⟨?_, ?_, h3, ?_, ?_⟩
  · rfl
  · rfl
  · rfl
  · rw [h3]
    rfl

/-- Claim C3 (amended): with zero accepted verdicts each variant fails the
whole evaluation and never returns a fabricated consensus result; the HTTP
endpoint's error object carries every per-provider attempt, while the
plugin variant throws a fixed error that is independent of which providers
failed and how — it carries no per-provider failure information. -/
theorem claim_C3 :
    (∀ outcomes : List (Option ProviderResponse), acceptedResponses outcomes = [] →
      getConsensus outcomes = Except.error ConsensusError.noValidResponses ∧
      ∀ c, getConsensus outcomes ≠ Except.ok c) ∧
    (∀ o1 o2 : List (Option ProviderResponse), acceptedResponses o1 = [] →
      acceptedResponses o2 = [] → getConsensus o1 = getConsensus o2) ∧
    (∀ responses : List AttemptRecord, httpValid responses = [] →
      consensusEndpoint responses =
        HttpOutcome.failure "No valid responses from providers" responses ∧
      ∀ r, consensusEndpoint responses ≠ HttpOutcome.success r) := by
  have herr : ∀ outcomes : List (Option ProviderResponse), acceptedResponses outcomes = [] →
      getConsensus outcomes = Except.error ConsensusError.noValidResponses := by
    intro outcomes hempty
    rw [getConsensus, hempty, consensusOf]
    simp
  refine ⟨?_, ?_, ?_⟩
  · intro outcomes hempty
    exact ⟨herr outcomes hempty, fun c hc => by rw [herr outcomes hempty] at hc; cases hc⟩
  · intro o1 o2 h1 h2
    rw [herr o1 h1, herr o2 h2]
  · intro responses hempty
    have h : consensusEndpoint responses =
        HttpOutcome.failure "No valid responses from providers" responses := by
      rw [consensusEndpoint, hempty]
      simp
    exact ⟨h, fun r hr => by rw [h] at hr; cases hr⟩

/-- Witness for C3: a lone failed provider attempt in each variant, and two
different failure configurations sharing one error. -/
theorem claim_C3_witness :
    (getConsensus [none] = Except.error ConsensusError.noValidResponses ∧
      ∀ c, getConsensus [none] ≠ Except.ok c) ∧
    getConsensus [none] = getConsensus [none, none] ∧
    (consensusEndpoint [mkErrorAttempt "openai" "boom"] =
        HttpOutcome.failure "No valid responses from providers" [mkErrorAttempt "openai" "boom"] ∧
      ∀ r, consensusEndpoint [mkErrorAttempt "openai" "boom"] ≠ HttpOutcome.success r) :=
  ⟨claim_C3.1 [none] (by rfl),
   claim_C3.2.1 [none] [none, none] (by rfl) (by rfl),
   claim_C3.2.2 [mkErrorAttempt "openai" "boom"] (by rfl)⟩

/-! ## Parser claims -/

/-- A provider text whose JSON reports confidence 1.5. -/
def overconfidentText : String :=
  "The verdict: \x7b\"optionATrue\": true, \"optionBTrue\": false, \"confidence\": 1.5, \"reasoning\": \"sure\"\x7d"

/-- A provider text whose JSON reports confidence -0.3. -/
def underconfidentText : String :=
  "\x7b\"optionATrue\": false, \"optionBTrue\": true, \"confidence\": -0.3, \"reasoning\": \"meh\"\x7d"

/-- Counterexample to C4: the plugin-variant path does not clamp — on a text
reporting confidence 1.5 it produces a verdict whose confidence is 1.5,
outside [0,1]. -/
theorem claim_C4_counterexample :
    (parsePluginResponse "openai" "gpt-4" overconfidentText).map (fun r => r.confidence) =
      some (3/2) ∧ ¬ ((3 : ℚ)/2 ≤ 1) := by
  constructor
  · simp +decide [parsePluginResponse, overconfidentText, jsonMatch, Json.parse, parseValue,
      parseMembers, parseElems, parseStringChars, parseNumber, parseFrac, parseExpPart,
      takeDigits, digitVal?, digitsToNat, skipWs, lbrace, rbrace, escChar?, hexVal?,
      validateFields, Json.getField, lookupLast]
    norm_num
  · norm_num

/-- Claim C4 (amended): every `OracleResponse` produced by the HTTP-service
parser has confidence clamped into [0,1] at creation time (1.5 clamps to
1.0 and -0.3 to 0.0); the plugin-variant path, by contrast, passes the
upstream confidence through unclamped. -/
theorem claim_C4 :
    (∀ text r, parseOracleResponse text = Except.ok r →
      0 ≤ r.confidence ∧ r.confidence ≤ 1) ∧
    parseOracleResponse overconfidentText =
      Except.ok { optionATrue := true, optionBTrue := false, confidence := 1,
                  reasoning := "sure" } ∧
    parseOracleResponse underconfidentText =
      Except.ok { optionATrue := false, optionBTrue := true, confidence := 0,
                  reasoning := "meh" } ∧
    (∀ providerName modelName text v,
      parsePluginResponse providerName modelName text = some v →
      ∀ s parsed a b c r, jsonMatch text = some s → Json.parse s = some parsed →
        validateFields parsed = some (a, b, c, r) → v.confidence = c) := by
  refine ⟨?_, ?_, ?_, ?_⟩
  · intro text r h
    unfold parseOracleResponse at h
    split at h
    · cases h
    · split at h
      · cases h
      · split at h
        · cases h
        · cases h
          constructor
          · exact le_max_left 0 _
          · exact max_le (by norm_num) (min_le_left 1 _)
  · simp +decide [parseOracleResponse, overconfidentText, jsonMatch, Json.parse, parseValue,
      parseMembers, parseElems, parseStringChars, parseNumber, parseFrac, parseExpPart,
      takeDigits, digitVal?, digitsToNat, skipWs, lbrace, rbrace, escChar?, hexVal?,
      validateFields, Json.getField, lookupLast]
  · simp +decide [parseOracleResponse, underconfidentText, jsonMatch, Json.parse, parseValue,
      parseMembers, parseElems, parseStringChars, parseNumber, parseFrac, parseExpPart,
      takeDigits, digitVal?, digitsToNat, skipWs, lbrace, rbrace, escChar?, hexVal?,
      validateFields, Json.getField, lookupLast]
  · intro providerName modelName text v hv s parsed a b c r hs hp hf
    unfold parsePluginResponse at hv
    simp only [hs, hp, hf] at hv
    injection hv with h2
    subst h2
    rfl

/-- The JSON substring the greedy match extracts from `overconfidentText`. -/
def overconfidentSub : String :=
  "\x7b\"optionATrue\": true, \"optionBTrue\": false, \"confidence\": 1.5, \"reasoning\": \"sure\"\x7d"

/-- Witness for C4: the clamp bounds instantiated at the 1.5-confidence
text, and the unclamped plugin confidence at the same text. -/
theorem claim_C4_witness :
    ((0 : ℚ) ≤ ({ optionATrue := true, optionBTrue := false,
                  confidence := 1, reasoning := "sure" } : OracleResponse).confidence ∧
      ({ optionATrue := true, optionBTrue := false,
         confidence := 1, reasoning := "sure" } : OracleResponse).confidence ≤ 1) ∧
    ({ provider := "openai", model := "gpt-4", optionATrue := true, optionBTrue := false,
       confidence := 3/2, reasoning := "sure" } : ProviderResponse).confidence = 3/2 :=
  ⟨claim_C4.1 overconfidentText
      { optionATrue := true, optionBTrue := false, confidence := 1, reasoning := "sure" }
      claim_C4.2.1,
   claim_C4.2.2.2 "openai" "gpt-4" overconfidentText
      { provider := "openai", model := "gpt-4", optionATrue := true, optionBTrue := false,
        confidence := 3/2, reasoning := "sure" }
      (by simp +decide [parsePluginResponse, overconfidentText, jsonMatch, Json.parse, parseValue,
            parseMembers, parseElems, parseStringChars, parseNumber, parseFrac, parseExpPart,
            takeDigits, digitVal?, digitsToNat, skipWs, lbrace, rbrace, escChar?, hexVal?,
            validateFields, Json.getField, lookupLast]
          norm_num)
      overconfidentSub
      (Json.obj [("optionATrue", Json.bool true), ("optionBTrue", Json.bool false),
                 ("confidence", Json.num (3/2)), ("reasoning", Json.str "sure")])
      true false (3/2) "sure"
      (by rfl)
      (by simp +decide [overconfidentSub, Json.parse, parseValue,
            parseMembers, parseElems, parseStringChars, parseNumber, parseFrac, parseExpPart,
            takeDigits, digitVal?, digitsToNat, skipWs, lbrace, rbrace, escChar?, hexVal?]
          norm_num)
      (by rfl)⟩

/-- A provider text holding a valid verdict object followed by a second,
empty object. -/
def doubleObjectText : String :=
  "\x7b\"optionATrue\": true, \"optionBTrue\": false, \"confidence\": 0.9, \"reasoning\": \"ok\"\x7d \x7b\x7d"

/-- Counterexample to C5: the source regex `/\{[\s\S]*\}/` is greedy, so on
a text whose first balanced object is followed by a second object the code
captures everything up to the last brace and fails on `JSON.parse`, while
the parser the spec describes (first balanced-brace object) would succeed. -/
theorem claim_C5_counterexample :
    parseOracleResponse doubleObjectText = Except.error ParseError.jsonSyntaxError ∧
    specParseOracleResponse doubleObjectText =
      Except.ok { optionATrue := true, optionBTrue := false,
                  confidence := 9/10, reasoning := "ok" } := by
  constructor
  · rfl
  · simp +decide [specParseOracleResponse, doubleObjectText, firstBalancedObject, dropToBrace,
      scanBalanced, Json.parse, parseValue,
      parseMembers, parseElems, parseStringChars, parseNumber, parseFrac, parseExpPart,
      takeDigits, digitVal?, digitsToNat, skipWs, lbrace, rbrace, escChar?, hexVal?,
      validateFields, Json.getField, lookupLast]
    norm_num

/-- Claim C5 (amended): the parser extracts the substring running from the
first `{` of the text to its last `}` (the greedy regex match) — not the
first balanced-brace object; if no such substring exists it fails with
MalformedResponse (`noJsonFound`), if the substring does not parse as JSON
it fails with MalformedResponse (`jsonSyntaxError`), and if one of the four
required fields is missing or wrongly typed it fails with InvalidSchema
(`invalidStructure`); otherwise it succeeds with the clamped verdict. -/
theorem claim_C5 (text : String) :
    (∀ s, jsonMatch text = some s →
      ∃ i j, i < j ∧
        ∃ hi : i < text.toList.length, ∃ hj : j < text.toList.length,
        text.toList[i] = lbrace ∧
        (∀ k, ∀ hk : k < text.toList.length, k < i → text.toList[k] ≠ lbrace) ∧
        text.toList[j] = rbrace ∧
        (∀ k, ∀ hk : k < text.toList.length, j < k → text.toList[k] ≠ rbrace) ∧
        s = String.mk ((text.toList.drop i).take (j - i + 1))) ∧
    (jsonMatch text = none → parseOracleResponse text = Except.error ParseError.noJsonFound) ∧
    (∀ s, jsonMatch text = some s → Json.parse s = none →
      parseOracleResponse text = Except.error ParseError.jsonSyntaxError) ∧
    (∀ s j, jsonMatch text = some s → Json.parse s = some j → validateFields j = none →
      parseOracleResponse text = Except.error ParseError.invalidStructure) ∧
    (∀ s j a b c r, jsonMatch text = some s → Json.parse s = some j →
      validateFields j = some (a, b, c, r) →
      parseOracleResponse text =
        Except.ok { optionATrue := a, optionBTrue := b,
                    confidence := max 0 (min 1 c), reasoning := r }) := by
  refine ⟨?_, ?_, ?_, ?_, ?_⟩
  · intro s hs
    unfold jsonMatch at hs
    cases hfi : (text.toList.findIdx? fun c => c = lbrace) with
    | none =>
      simp only [hfi] at hs
      cases hs
    | some i =>
      cases hri : (text.toList.reverse.findIdx? fun c => c = rbrace) with
      | none =>
        simp only [hfi, hri] at hs
        cases hs
      | some k =>
        simp only [hfi, hri] at hs
        by_cases hij : i < text.toList.length - 1 - k
        · rw [if_pos hij, Option.some.injEq] at hs
          obtain ⟨hilt, hpi, hmini⟩ := List.findIdx?_eq_some_iff_getElem.mp hfi
          obtain ⟨hklt, hpk, hmink⟩ := List.findIdx?_eq_some_iff_getElem.mp hri
          rw [List.length_reverse] at hklt
          refine ⟨i, text.toList.length - 1 - k, hij, hilt, by omega, ?_, ?_, ?_, ?_, ?_⟩
          · simpa using hpi
          · intro m hm hmi
            have := hmini m hmi
            simpa using this
          · have hg := List.getElem_reverse (l := text.toList) (i := k)
              (h := by rw [List.length_reverse]; exact hklt)
            rw [hg] at hpk
            simpa using hpk
          · intro m hm hjm
            have hrev : text.toList.length - 1 - m < k := by omega
            have hh := hmink (text.toList.length - 1 - m) hrev
            have hgr := List.getElem_reverse (l := text.toList)
              (i := text.toList.length - 1 - m)
              (h := by rw [List.length_reverse]; omega)
            rw [hgr] at hh
            have hmm : text.toList.length - 1 - (text.toList.length - 1 - m) = m := by omega
            have hq : text.toList[text.toList.length - 1 - (text.toList.length - 1 - m)]? =
                text.toList[m]? := by rw [hmm]
            rw [List.getElem?_eq_getElem (by omega), List.getElem?_eq_getElem hm] at hq
            have hq2 := Option.some.inj hq
            intro hcontra
            exact hh (decide_eq_true (hq2.trans hcontra))
          · exact hs.symm
        · rw [if_neg hij] at hs
          cases hs
  · intro h
    unfold parseOracleResponse
    rw [h]
  · intro s hs hp
    unfold parseOracleResponse
    simp only [hs, hp]
  · intro s j hs hp hf
    unfold parseOracleResponse
    simp only [hs, hp, hf]
  · intro s j a b c r hs hp hf
    unfold parseOracleResponse
    simp only [hs, hp, hf]

/-- A clean provider text for the success leg of the C5 witness. -/
def cleanVerdictText : String :=
  "\x7b\"optionATrue\": true, \"optionBTrue\": false, \"confidence\": 1, \"reasoning\": \"y\"\x7d"

/-- Witness for C5: each leg of the amended claim instantiated at a
concrete text. -/
theorem claim_C5_witness :
    (∃ i j, i < j ∧
      ∃ hi : i < doubleObjectText.toList.length, ∃ hj : j < doubleObjectText.toList.length,
      doubleObjectText.toList[i] = lbrace ∧
      (∀ k, ∀ hk : k < doubleObjectText.toList.length, k < i → doubleObjectText.toList[k] ≠ lbrace) ∧
      doubleObjectText.toList[j] = rbrace ∧
      (∀ k, ∀ hk : k < doubleObjectText.toList.length, j < k → doubleObjectText.toList[k] ≠ rbrace) ∧
      String.mk ((doubleObjectText.toList.drop i).take (j - i + 1)) =
        String.mk ((doubleObjectText.toList.drop i).take (j - i + 1))) ∧
    parseOracleResponse "no json here" = Except.error ParseError.noJsonFound ∧
    parseOracleResponse "\x7b oops\x7d" = Except.error ParseError.jsonSyntaxError ∧
    parseOracleResponse "\x7b\"confidence\": true\x7d" = Except.error ParseError.invalidStructure ∧
    parseOracleResponse cleanVerdictText =
      Except.ok { optionATrue := true, optionBTrue := false,
                  confidence := max 0 (min 1 1), reasoning := "y" } := by
  refine ⟨?_, ?_, ?_, ?_, ?_⟩
  · obtain ⟨i, j, h1, h2, h3, h4, h5, h6, h7, _⟩ :=
      (claim_C5 doubleObjectText).1 _ (by rfl)
    exact ⟨i, j, h1, h2, h3, h4, h5, h6, h7, rfl⟩
  · exact (claim_C5 "no json here").2.1 (by rfl)
  · exact (claim_C5 "\x7b oops\x7d").2.2.1 _ (by rfl) (by rfl)
  · exact (claim_C5 "\x7b\"confidence\": true\x7d").2.2.2.1 _
      (Json.obj [("confidence", Json.bool true)]) (by rfl) (by rfl) (by rfl)
  · exact (claim_C5 cleanVerdictText).2.2.2.2 _
      (Json.obj [("optionATrue", Json.bool true), ("optionBTrue", Json.bool false),
                 ("confidence", Json.num 1), ("reasoning", Json.str "y")])
      true false 1 "y" (by rfl)
      (by simp +decide [cleanVerdictText, Json.parse, parseValue,
            parseMembers, parseElems, parseStringChars, parseNumber, parseFrac, parseExpPart,
            takeDigits, digitVal?, digitsToNat, skipWs, lbrace, rbrace, escChar?, hexVal?])
      (by rfl)

/-- Claim C6: a verdict is accepted into the consensus set iff its
confidence is at least the 0.7 floor; every dropped verdict is excluded
from the votes, the confidence mean, the reasoning trail and the providers
list, all of which are computed from the accepted list alone. -/
theorem claim_C6 :
    MIN_CONFIDENCE = 7/10 ∧
    (∀ outcomes r, r ∈ acceptedResponses outcomes ↔
      some r ∈ outcomes ∧ MIN_CONFIDENCE ≤ r.confidence) ∧
    (∀ outcomes c, getConsensus outcomes = Except.ok c →
      c.providers = (acceptedResponses outcomes).map (fun r => r.provider) ∧
      c.confidence = ((acceptedResponses outcomes).map fun r => r.confidence).sum /
        ((acceptedResponses outcomes).length : ℚ) ∧
      c.reasoning = String.intercalate "; "
        ((acceptedResponses outcomes).map fun r => r.provider ++ ": " ++ r.reasoning) ∧
      c.votes.optionA =
        ((acceptedResponses outcomes).filter fun r => r.optionATrue && !r.optionBTrue).length ∧
      c.votes.optionB =
        ((acceptedResponses outcomes).filter fun r => r.optionBTrue && !r.optionATrue).length) := by
  refine ⟨rfl, mem_acceptedResponses, ?_⟩
  intro outcomes c h
  obtain ⟨hne, hc⟩ := getConsensus_ok outcomes c h
  subst hc
  exact ⟨rfl, rfl, rfl, rfl, rfl⟩

def w6verdict : ProviderResponse :=
  { provider := "openai", model := "gpt-4", optionATrue := true, optionBTrue := false,
    confidence := 4/5, reasoning := "yes" }

def w6low : ProviderResponse :=
  { provider := "gemini", model := "gemini-1.5-flash", optionATrue := false, optionBTrue := true,
    confidence := 3/10, reasoning := "no" }

def w6outcomes : List (Option ProviderResponse) := [some w6verdict, some w6low]

def w6result : ConsensusResult :=
  { optionATrue := false, optionBTrue := false, confidence := 4/5,
    reasoning := "openai: yes", providers := ["openai"],
    votes := { optionA := 1, optionB := 0 } }

/-- Witness for C6: a 0.8-confidence verdict is accepted, a 0.3-confidence
one is dropped from every field of the result. -/
theorem claim_C6_witness :
    w6result.providers = (acceptedResponses w6outcomes).map (fun r => r.provider) ∧
    w6result.confidence = ((acceptedResponses w6outcomes).map fun r => r.confidence).sum /
      ((acceptedResponses w6outcomes).length : ℚ) ∧
    w6result.reasoning = String.intercalate "; "
      ((acceptedResponses w6outcomes).map fun r => r.provider ++ ": " ++ r.reasoning) ∧
    w6result.votes.optionA =
      ((acceptedResponses w6outcomes).filter fun r => r.optionATrue && !r.optionBTrue).length ∧
    w6result.votes.optionB =
      ((acceptedResponses w6outcomes).filter fun r => r.optionBTrue && !r.optionATrue).length :=
  claim_C6.2.2 w6outcomes w6result (by
    have h1 : ((7:ℚ)/10 ≤ 4/5) := by norm_num
    have h2 : ¬ ((7:ℚ)/10 ≤ 3/10) := by norm_num
    simp +decide [getConsensus, consensusOf, acceptedResponses, tallyStep, initialTally,
      CONSENSUS_THRESHOLD, MIN_CONFIDENCE, String.intercalate, w6outcomes, w6verdict, w6low,
      w6result, h1, h2])

/-- Claim C7: in each variant the result's `optionATrue` is true iff A's
vote count reaches the threshold — the fixed count 2 in the plugin variant,
`Math.ceil(accepted/2)` in the HTTP variant — `optionBTrue` analogously,
and both flags can simultaneously be false (a lone A-vote under
threshold 2). -/
theorem claim_C7 :
    CONSENSUS_THRESHOLD = 2 ∧
    (∀ outcomes c, getConsensus outcomes = Except.ok c →
      (c.optionATrue = true ↔ CONSENSUS_THRESHOLD ≤ c.votes.optionA) ∧
      (c.optionBTrue = true ↔ CONSENSUS_THRESHOLD ≤ c.votes.optionB)) ∧
    (∀ responses r, consensusEndpoint responses = HttpOutcome.success r →
      (r.optionATrue = true ↔ ((httpValid responses).length + 1) / 2 ≤ r.votes.optionA) ∧
      (r.optionBTrue = true ↔ ((httpValid responses).length + 1) / 2 ≤ r.votes.optionB)) ∧
    (∃ c, getConsensus [some w6verdict] = Except.ok c ∧
      c.optionATrue = false ∧ c.optionBTrue = false ∧
      c.votes = { optionA := 1, optionB := 0 }) := by
  refine ⟨rfl, ?_, ?_, ?_⟩
  · intro outcomes c h
    obtain ⟨hne, hc⟩ := getConsensus_ok outcomes c h
    subst hc
    constructor <;> exact decide_eq_true_iff
  · intro responses r h
    obtain ⟨hne, hr⟩ := consensusEndpoint_success responses r h
    subst hr
    constructor <;> exact decide_eq_true_iff
  · refine ⟨{ optionATrue := false, optionBTrue := false, confidence := 4/5,
              reasoning := "openai: yes", providers := ["openai"],
              votes := { optionA := 1, optionB := 0 } }, ?_, rfl, rfl, rfl⟩
    have h1 : ((7:ℚ)/10 ≤ 4/5) := by norm_num
    simp +decide [getConsensus, consensusOf, acceptedResponses, tallyStep, initialTally,
      CONSENSUS_THRESHOLD, MIN_CONFIDENCE, String.intercalate, w6verdict, h1]

def w7attempt : AttemptRecord :=
  { provider := "openai",
    response := { optionATrue := true, optionBTrue := false, confidence := 4/5,
                  reasoning := "y" },
    error := none }

def w7http : HttpConsensus :=
  { optionATrue := true, optionBTrue := false, confidence := 4/5,
    reasoning := "openai: y", votes := { optionA := 1, optionB := 0 },
    providers := ["openai"], allResponses := [w7attempt] }

/-- Witness for C7: the vote-threshold iffs instantiated for each variant. -/
theorem claim_C7_witness :
    ((w6result.optionATrue = true ↔ CONSENSUS_THRESHOLD ≤ w6result.votes.optionA) ∧
     (w6result.optionBTrue = true ↔ CONSENSUS_THRESHOLD ≤ w6result.votes.optionB)) ∧
    ((w7http.optionATrue = true ↔ ((httpValid [w7attempt]).length + 1) / 2 ≤ w7http.votes.optionA) ∧
     (w7http.optionBTrue = true ↔ ((httpValid [w7attempt]).length + 1) / 2 ≤ w7http.votes.optionB)) :=
  ⟨claim_C7.2.1 w6outcomes w6result (by
      have h1 : ((7:ℚ)/10 ≤ 4/5) := by norm_num
      have h2 : ¬ ((7:ℚ)/10 ≤ 3/10) := by norm_num
      simp +decide [getConsensus, consensusOf, acceptedResponses, tallyStep, initialTally,
        CONSENSUS_THRESHOLD, MIN_CONFIDENCE, String.intercalate, w6outcomes, w6verdict, w6low,
        w6result, h1, h2]),
   claim_C7.2.2.1 [w7attempt] w7http (by
      have h1 : ((7:ℚ)/10 ≤ 4/5) := by norm_num
      simp +decide [consensusEndpoint, httpSuccess, httpValid, httpTallyStep, initialHttpTally,
        String.intercalate, w7attempt, w7http, h1])⟩

/-- An errored attempt is dropped by the endpoint's validity filter. -/
theorem httpValid_error_absorbed (xs ys : List AttemptRecord) (p e : String) :
    httpValid (xs ++ mkErrorAttempt p e :: ys) = httpValid (xs ++ ys) := by
  simp [httpValid, List.filter_append, List.filter_cons, mkErrorAttempt]

/-- Claim C8: the failure of a single provider — no API key, a transport
error, unusable text, or a schema-invalid field — contributes no verdict
(`none` / an errored attempt record), never changes what the remaining
providers produce, and any nonempty accepted set still yields a consensus
result. -/
theorem claim_C8 :
    (∀ xs ys : List (Option ProviderResponse),
      getConsensus (xs ++ none :: ys) = getConsensus (xs ++ ys)) ∧
    (∀ n m, runProvider n m ProviderAttempt.noApiKey = none ∧
      runProvider n m ProviderAttempt.transportError = none ∧
      ∀ t, parsePluginResponse n m t = none →
        runProvider n m (ProviderAttempt.gotText t) = none) ∧
    (∀ outcomes, acceptedResponses outcomes ≠ [] →
      ∃ c, getConsensus outcomes = Except.ok c) ∧
    (∀ xs ys p e, httpValid (xs ++ mkErrorAttempt p e :: ys) = httpValid (xs ++ ys)) ∧
    (∀ xs ys p e r, consensusEndpoint (xs ++ ys) = HttpOutcome.success r →
      ∃ r2, consensusEndpoint (xs ++ mkErrorAttempt p e :: ys) = HttpOutcome.success r2 ∧
        r2.optionATrue = r.optionATrue ∧ r2.optionBTrue = r.optionBTrue ∧
        r2.confidence = r.confidence ∧ r2.reasoning = r.reasoning ∧
        r2.votes = r.votes ∧ r2.providers = r.providers) := by
  refine ⟨?_, ?_, ?_, httpValid_error_absorbed, ?_⟩
  · intro xs ys
    rw [getConsensus, getConsensus, acceptedResponses_append, acceptedResponses_append,
      acceptedResponses]
  · intro n m
    exact ⟨rfl, rfl, fun t h => by simp [runProvider, h]⟩
  · intro outcomes hne
    rw [getConsensus, consensusOf_eq_ok _ hne]
    exact ⟨_, rfl⟩
  · intro xs ys p e r h
    obtain ⟨hne, hr⟩ := consensusEndpoint_success _ _ h
    refine ⟨httpReduced (httpValid (xs ++ ys)) (xs ++ mkErrorAttempt p e :: ys), ?_, ?_⟩
    · rw [consensusEndpoint, httpValid_error_absorbed, if_neg (by simpa using hne),
        httpSuccess_eq]
    · subst hr
      exact ⟨rfl, rfl, rfl, rfl, rfl, rfl⟩

def w8attempt : AttemptRecord :=
  { provider := "openai",
    response := { optionATrue := true, optionBTrue := false, confidence := 4/5,
                  reasoning := "y" },
    error := none }

def w8verdict : ProviderResponse :=
  { provider := "openai", model := "gpt-4", optionATrue := true, optionBTrue := false,
    confidence := 4/5, reasoning := "y" }

def w8http : HttpConsensus :=
  { optionATrue := true, optionBTrue := false, confidence := 4/5,
    reasoning := "openai: y", votes := { optionA := 1, optionB := 0 },
    providers := ["openai"], allResponses := [w8attempt] }

/-- Witness for C8: a malformed text yields no verdict; one accepted
verdict yields a result; inserting an errored attempt beside a valid one
leaves every consensus field unchanged. -/
theorem claim_C8_witness :
    runProvider "openai" "gpt-4" (ProviderAttempt.gotText "no json") = none ∧
    (∃ c, getConsensus [some w8verdict] = Except.ok c) ∧
    (∃ r2, consensusEndpoint ([w8attempt] ++ mkErrorAttempt "gemini" "boom" :: []) =
        HttpOutcome.success r2 ∧
      r2.optionATrue = w8http.optionATrue ∧ r2.optionBTrue = w8http.optionBTrue ∧
      r2.confidence = w8http.confidence ∧ r2.reasoning = w8http.reasoning ∧
      r2.votes = w8http.votes ∧ r2.providers = w8http.providers) :=
  ⟨claim_C8.2.1 "openai" "gpt-4" |>.2.2 "no json" (by rfl),
   claim_C8.2.2.1 [some w8verdict] (by
      have h1 : ((7:ℚ)/10 ≤ 4/5) := by norm_num
      simp +decide [acceptedResponses, MIN_CONFIDENCE, w8verdict, h1]),
   claim_C8.2.2.2.2 [w8attempt] [] "gemini" "boom" w8http (by
      have h1 : ((7:ℚ)/10 ≤ 4/5) := by norm_num
      simp +decide [consensusEndpoint, httpSuccess, httpValid, httpTallyStep, initialHttpTally,
        String.intercalate, w8attempt, w8http, h1])⟩

def w9first : ProviderResponse :=
  { provider := "openai", model := "gpt-4", optionATrue := true, optionBTrue := false,
    confidence := 4/5, reasoning := "a" }

def w9second : ProviderResponse :=
  { provider := "gemini", model := "gemini-1.5-flash", optionATrue := false, optionBTrue := true,
    confidence := 9/10, reasoning := "b" }

/-- Counterexample to C9: collecting the same two accepted verdicts in the
opposite order changes the result — the reasoning trail and providers list
follow collection order. -/
theorem claim_C9_counterexample :
    getConsensus [some w9first, some w9second] ≠
      getConsensus [some w9second, some w9first] := by
  have h1 : ((7:ℚ)/10 ≤ 4/5) := by norm_num
  have h2 : ((7:ℚ)/10 ≤ 9/10) := by norm_num
  simp +decide [getConsensus, consensusOf, acceptedResponses, tallyStep, initialTally,
    CONSENSUS_THRESHOLD, MIN_CONFIDENCE, String.intercalate, w9first, w9second, h1, h2]

/-- Claim C9 (amended): for any permutation of the collection order the
consensus flags, the vote counts and the mean confidence are unchanged,
and the providers list is permuted accordingly; the concatenated reasoning
string and the providers sequence themselves do follow collection order
(see the counterexample). -/
theorem claim_C9 (o1 o2 : List (Option ProviderResponse)) (hperm : o1.Perm o2) :
    ∀ c1, getConsensus o1 = Except.ok c1 →
      ∃ c2, getConsensus o2 = Except.ok c2 ∧
        c1.optionATrue = c2.optionATrue ∧ c1.optionBTrue = c2.optionBTrue ∧
        c1.confidence = c2.confidence ∧ c1.votes = c2.votes ∧
        c1.providers.Perm c2.providers := by
  intro c1 h1
  obtain ⟨hne1, hc1⟩ := getConsensus_ok o1 c1 h1
  have hpacc : (acceptedResponses o1).Perm (acceptedResponses o2) := by
    rw [acceptedResponses_eq_filter, acceptedResponses_eq_filter]
    exact (hperm.filterMap id).filter _
  have hne2 : acceptedResponses o2 ≠ [] := by
    intro h0
    rw [h0] at hpacc
    exact hne1 (List.eq_nil_of_length_eq_zero (by simpa using hpacc.length_eq))
  refine ⟨reducedResult (acceptedResponses o2), ?_, ?_, ?_, ?_, ?_, ?_⟩
  · rw [getConsensus, consensusOf_eq_ok _ hne2]
  · subst hc1
    simp only [reducedResult]
    rw [(hpacc.filter _).length_eq]
  · subst hc1
    simp only [reducedResult]
    rw [(hpacc.filter _).length_eq]
  · subst hc1
    simp only [reducedResult]
    rw [(hpacc.map _).sum_eq, hpacc.length_eq]
  · subst hc1
    simp only [reducedResult]
    rw [(hpacc.filter _).length_eq, (hpacc.filter _).length_eq]
  · subst hc1
    simp only [reducedResult]
    exact hpacc.map _

def w9result : ConsensusResult :=
  { optionATrue := false, optionBTrue := false, confidence := (4/5 + 9/10) / 2,
    reasoning := "openai: a; gemini: b", providers := ["openai", "gemini"],
    votes := { optionA := 1, optionB := 1 } }

/-- Witness for C9: the order-independent fields at a concrete swap of two
accepted verdicts. -/
theorem claim_C9_witness :
    ∃ c2, getConsensus [some w9second, some w9first] = Except.ok c2 ∧
      w9result.optionATrue = c2.optionATrue ∧ w9result.optionBTrue = c2.optionBTrue ∧
      w9result.confidence = c2.confidence ∧ w9result.votes = c2.votes ∧
      w9result.providers.Perm c2.providers :=
  claim_C9 [some w9first, some w9second] [some w9second, some w9first]
    (List.Perm.swap (some w9second) (some w9first) []) w9result (by
      have h1 : ((7:ℚ)/10 ≤ 4/5) := by norm_num
      have h2 : ((7:ℚ)/10 ≤ 9/10) := by norm_num
      simp +decide [getConsensus, consensusOf, acceptedResponses, tallyStep, initialTally,
        CONSENSUS_THRESHOLD, MIN_CONFIDENCE, String.intercalate, w9first, w9second, w9result,
        h1, h2])

/-- Claim C10: whenever the reduction succeeds, the reported confidence is
at least the 0.7 floor, because it is the arithmetic mean of accepted
confidences, each of which passed the floor check. -/
theorem claim_C10 :
    (∀ outcomes c, getConsensus outcomes = Except.ok c →
      MIN_CONFIDENCE ≤ c.confidence) ∧
    (∀ responses r, consensusEndpoint responses = HttpOutcome.success r →
      (7:ℚ)/10 ≤ r.confidence) := by
  constructor
  · intro o c h
    obtain ⟨hne, hc⟩ := getConsensus_ok o c h
    subst hc
    have hlen : ((acceptedResponses o).length : ℚ) =
        (((acceptedResponses o).map fun r => r.confidence).length : ℚ) := by
      rw [List.length_map]
    show MIN_CONFIDENCE ≤ ((acceptedResponses o).map fun r => r.confidence).sum /
      ((acceptedResponses o).length : ℚ)
    rw [hlen]
    apply le_mean
    · simp [hne]
    · intro x hx
      obtain ⟨r, hr, hrx⟩ := List.mem_map.mp hx
      rw [← hrx]
      exact ((mem_acceptedResponses o r).mp hr).2
  · intro responses r h
    obtain ⟨hne, hr⟩ := consensusEndpoint_success responses r h
    subst hr
    have hlen : ((httpValid responses).length : ℚ) =
        (((httpValid responses).map fun a => a.response.confidence).length : ℚ) := by
      rw [List.length_map]
    show (7:ℚ)/10 ≤ ((httpValid responses).map fun a => a.response.confidence).sum /
      ((httpValid responses).length : ℚ)
    rw [hlen]
    apply le_mean
    · simp [hne]
    · intro x hx
      obtain ⟨a, ha, hax⟩ := List.mem_map.mp hx
      rw [← hax]
      have := (List.mem_filter.mp ha).2
      have hconf := (Bool.and_elim_right this)
      exact of_decide_eq_true hconf

def w10outcomes : List (Option ProviderResponse) := [some w9first]

def w10result : ConsensusResult :=
  { optionATrue := false, optionBTrue := false, confidence := 4/5,
    reasoning := "openai: a", providers := ["openai"],
    votes := { optionA := 1, optionB := 0 } }

def w10attempt : AttemptRecord :=
  { provider := "openai",
    response := { optionATrue := true, optionBTrue := false, confidence := 4/5,
                  reasoning := "a" },
    error := none }

def w10http : HttpConsensus :=
  { optionATrue := true, optionBTrue := false, confidence := 4/5,
    reasoning := "openai: a", votes := { optionA := 1, optionB := 0 },
    providers := ["openai"], allResponses := [w10attempt] }

/-- Witness for C10: both floor bounds at concrete single-verdict inputs. -/
theorem claim_C10_witness :
    MIN_CONFIDENCE ≤ w10result.confidence ∧ (7:ℚ)/10 ≤ w10http.confidence :=
  ⟨claim_C10.1 w10outcomes w10result (by
      have h1 : ((7:ℚ)/10 ≤ 4/5) := by norm_num
      simp +decide [getConsensus, consensusOf, acceptedResponses, tallyStep, initialTally,
        CONSENSUS_THRESHOLD, MIN_CONFIDENCE, String.intercalate, w10outcomes, w9first,
        w10result, h1]),
   claim_C10.2 [w10attempt] w10http (by
      have h1 : ((7:ℚ)/10 ≤ 4/5) := by norm_num
      simp +decide [consensusEndpoint, httpSuccess, httpValid, httpTallyStep, initialHttpTally,
        String.intercalate, w10attempt, w10http, h1])⟩
